import Mathlib

/-!
# idlv4l2: a Video4Linux2 capture adapter

A shallow embedding of `idlv4l2.c` / `idlv4l2.h`.

The C functions talk to the outside world only through a handful of calls
(`stat`, `v4l2_open`, `v4l2_ioctl`, `v4l2_mmap`, `v4l2_munmap`, `select`,
`calloc`, `free`, `memcpy`).  The outside world is a deterministic machine
`Kernel σ` over an arbitrary state type `σ`; quantifying over `Kernel σ` and
over the state quantifies over every behaviour of the device and of libc.

The program state `State σ` holds the two globals of the C file (`buffers`,
`n_buffers`), `errno`, the caller's image region and a chronological log of
the calls made so far.  The `DEBUG` statements only print and are left out.
-/

namespace Idlv4l2

/-! ## Constants of the system headers -/

/-- Value of `EINTR` in `<errno.h>`. -/
def EINTR : Nat := 4

/-- Value of `S_IFMT` in `<sys/stat.h>`. -/
def S_IFMT : Nat := 0o170000

/-- Value of `S_IFCHR` in `<sys/stat.h>`. -/
def S_IFCHR : Nat := 0o020000

/-- The test `S_ISCHR(m)` of `<sys/stat.h>`: `((m) & S_IFMT) == S_IFCHR`. -/
def S_ISCHR (m : Nat) : Bool := (m &&& S_IFMT) == S_IFCHR

/-- Value of `O_RDWR` in `<fcntl.h>`. -/
def O_RDWR : Nat := 0o2

/-- Value of `O_NONBLOCK` in `<fcntl.h>`. -/
def O_NONBLOCK : Nat := 0o4000

/-- Value of `MAP_FAILED`, that is `(void *) -1`, on a 64-bit target. -/
def MAP_FAILED : Nat := 2 ^ 64 - 1

/-- Value of `V4L2_CAP_VIDEO_CAPTURE` in `<linux/videodev2.h>`. -/
def V4L2_CAP_VIDEO_CAPTURE : Nat := 0x00000001

/-- Value of `V4L2_CAP_STREAMING` in `<linux/videodev2.h>`. -/
def V4L2_CAP_STREAMING : Nat := 0x04000000

/-- Value of `V4L2_BUF_TYPE_VIDEO_CAPTURE` in `<linux/videodev2.h>`. -/
def V4L2_BUF_TYPE_VIDEO_CAPTURE : Nat := 1

/-- Value of `V4L2_MEMORY_MMAP` in `<linux/videodev2.h>`. -/
def V4L2_MEMORY_MMAP : Nat := 1

/-- Value of `V4L2_PIX_FMT_GREY`, the fourcc of the characters G R E Y. -/
def V4L2_PIX_FMT_GREY : Nat := 0x59455247

/-- Value of `V4L2_FIELD_INTERLACED` in `<linux/videodev2.h>`. -/
def V4L2_FIELD_INTERLACED : Nat := 4

/-- The conversion `(IDL_LONG) x` of a 32-bit unsigned value: `IDL_LONG` is the
32-bit signed integer of `idl_export.h`, so the bit pattern is kept and read
as two's complement. -/
def IDL_LONG_cast (x : Nat) : Int :=
  if x % 2 ^ 32 < 2 ^ 31 then ((x % 2 ^ 32 : Nat) : Int)
  else ((x % 2 ^ 32 : Nat) : Int) - 2 ^ 32

/-! ## Data model -/

/-- The `struct buffer` of `idlv4l2.h`: `start` is the address of the mapping,
`length` its size in bytes. -/
structure buffer where
  start : Nat
  length : Nat
deriving DecidableEq, Repr

/-- The ioctl request codes used by the modelled functions. -/
inductive Request where
  | VIDIOC_QUERYCAP
  | VIDIOC_CROPCAP
  | VIDIOC_S_CROP
  | VIDIOC_S_FMT
  | VIDIOC_REQBUFS
  | VIDIOC_QUERYBUF
  | VIDIOC_QBUF
  | VIDIOC_DQBUF
  | VIDIOC_STREAMON
deriving DecidableEq, Repr

/-- The memory behind the `void *arg` of an ioctl, flattened: the fields of
`v4l2_capability`, `v4l2_cropcap`, `v4l2_crop`, `v4l2_format`,
`v4l2_requestbuffers`, `v4l2_buffer` and `enum v4l2_buf_type` that the program
sets or reads.  `type` is the `type` member of each structure (or the enum
itself for the stream-on request), `offset` is `buf.m.offset`, `rect` is
`cropcap.defrect` or `crop.c`. -/
structure Arg where
  type : Nat
  memory : Nat
  index : Nat
  length : Nat
  offset : Nat
  count : Nat
  capabilities : Nat
  width : Nat
  height : Nat
  pixelformat : Nat
  field : Nat
  rect : Nat
deriving DecidableEq, Repr

/-- A structure after `CLEAR(x)`, that is `memset(&x, 0, sizeof x)`. -/
def CLEAR : Arg :=
  { type := 0, memory := 0, index := 0, length := 0, offset := 0, count := 0,
    capabilities := 0, width := 0, height := 0, pixelformat := 0, field := 0,
    rect := 0 }

/-- What one `v4l2_ioctl` call hands back: its return value, the value of
`errno` right after it, and the contents of the argument structure. -/
structure IoctlResult where
  ret : Int
  errno : Nat
  arg : Arg
deriving DecidableEq, Repr

/-- What one `select` call hands back: its return value and the value of
`errno` right after it. -/
structure SelectResult where
  ret : Int
  errno : Nat
deriving DecidableEq, Repr

/-- What one `stat` call hands back: its return value and `st.st_mode`. -/
structure StatResult where
  ret : Int
  st_mode : Nat
deriving DecidableEq, Repr

/-- The outside world: every library and system call of `idlv4l2.c`, as a
transition of the world state `σ`.  `peek` reads one byte of mapped memory. -/
structure Kernel (σ : Type) where
  stat : σ → String → StatResult × σ
  v4l2_open : σ → String → Nat → Nat → Int × σ
  v4l2_ioctl : σ → Int → Request → Arg → IoctlResult × σ
  calloc : σ → Nat → Bool × σ
  v4l2_mmap : σ → Nat → Int → Nat → Nat × σ
  v4l2_munmap : σ → Nat → Nat → Int × σ
  free : σ → σ
  select : σ → Int → SelectResult × σ
  peek : σ → Nat → Nat

/-- One call made by the program, with what it was given and what it got. An
`xioctl` entry is one request submitted through the wrapper `xioctl`, with the
argument as the caller passed it and the result the wrapper returned.
`store slot v` is the assignment `*(IDL_LONG *) argv[slot] = v`; `memcpy src n`
is `memcpy(argv[2], src, n)`. -/
inductive Event where
  | stat (path : String) (r : StatResult)
  | v4l2_open (path : String) (fd : Int)
  | xioctl (request : Request) (arg : Arg) (r : IoctlResult)
  | calloc (n : Nat) (ok : Bool)
  | v4l2_mmap (length : Nat) (offset : Nat) (addr : Nat)
  | v4l2_munmap (start : Nat) (length : Nat) (ret : Int)
  | free
  | select (r : SelectResult)
  | memcpy (src : Nat) (n : Nat)
  | store (slot : Nat) (value : Int)
deriving DecidableEq, Repr

/-- The state the program runs in: the world, `errno`, the globals `buffers`
and `n_buffers` of `idlv4l2.c`, the bytes of the caller's image region (by
offset), and the log of calls made so far, oldest first. -/
structure State (σ : Type) where
  world : σ
  errno : Nat
  buffers : List buffer
  n_buffers : Nat
  image : Nat → Nat
  trace : List Event

/-- The element `buffers[i]`. -/
def State.buf {σ : Type} (st : State σ) (i : Nat) : buffer :=
  st.buffers.getD i { start := 0, length := 0 }

/-- Append one entry to the log. -/
def State.log {σ : Type} (st : State σ) (e : Event) : State σ :=
  { st with trace := st.trace ++ [e] }

/-! ## `xioctl` -/

/-- The `do ... while ((r == -1) && (errno == EINTR))` of `xioctl`.  The first
argument bounds the number of `v4l2_ioctl` calls; `none` means the bound was
reached while the call was still being interrupted. -/
def xioctlLoop {σ : Type} (k : Kernel σ) :
    Nat → σ → Int → Request → Arg → Option (IoctlResult × σ)
  | 0, _, _, _, _ => none
  | fuel + 1, w, fd, request, arg =>
    let r := k.v4l2_ioctl w fd request arg
    if r.1.ret = -1 ∧ r.1.errno = EINTR then
      xioctlLoop k fuel r.2 fd request r.1.arg
    else
      some r

/-- The wrapper `xioctl(fd, request, arg)`: returns the result of the last
`v4l2_ioctl` call; the argument structure then holds `r.arg`. -/
def xioctl {σ : Type} (k : Kernel σ) (fuel : Nat) (st : State σ) (fd : Int)
    (request : Request) (arg : Arg) : Option (IoctlResult × State σ) :=
  match xioctlLoop k fuel st.world fd request arg with
  | none => none
  | some (r, w) =>
    some (r, { st with world := w, errno := r.errno,
                       trace := st.trace ++ [Event.xioctl request arg r] })

/-! ## `idlv4l2_open` -/

/-- The function `idlv4l2_open`: `device` is `argv[1]`, the file descriptor is
stored through `argv[2]`. Returns the C return value and the new state. -/
def idlv4l2_open {σ : Type} (k : Kernel σ) (st : State σ) (device : String) :
    Int × State σ :=
  let s := k.stat st.world device
  let st1 := { st with world := s.2, trace := st.trace ++ [Event.stat device s.1] }
  if s.1.ret = -1 then (0, st1)
  else if !S_ISCHR s.1.st_mode then (0, st1)
  else
    let o := k.v4l2_open st1.world device (O_RDWR ||| O_NONBLOCK) 0
    let st2 := { st1 with world := o.2, trace := st1.trace ++ [Event.v4l2_open device o.1] }
    if o.1 = -1 then (0, st2)
    else (1, st2.log (Event.store 2 o.1))

/-! ## `idlv4l2_init` -/

/-- The argument of the buffer query for buffer `i`: `CLEAR(buf)`, then
`type`, `memory` and `index` are set. The enqueue of `idlv4l2_startcapture`
fills its `buf` the same way. -/
def bufArg (i : Nat) : Arg :=
  { CLEAR with type := V4L2_BUF_TYPE_VIDEO_CAPTURE, memory := V4L2_MEMORY_MMAP,
               index := i }

/-- The format request: `CLEAR(fmt)`, then 640 x 480, grey, interlaced. -/
def fmtArg : Arg :=
  { CLEAR with type := V4L2_BUF_TYPE_VIDEO_CAPTURE, width := 640, height := 480,
               pixelformat := V4L2_PIX_FMT_GREY, field := V4L2_FIELD_INTERLACED }

/-- The buffer request: `CLEAR(req)`, then four memory-mapped capture buffers. -/
def reqArg : Arg :=
  { CLEAR with count := 4, type := V4L2_BUF_TYPE_VIDEO_CAPTURE,
               memory := V4L2_MEMORY_MMAP }

/-- The block `Select video input` of `idlv4l2_init`: query the cropping
capability and, when that returns 0, reset the crop rectangle to the default;
the outcome of the reset is only reported by `DEBUG`. The members of `crop`
that the C code leaves unset are taken as zero. -/
def selectInput {σ : Type} (k : Kernel σ) (fuel : Nat) (st : State σ) (fd : Int) :
    Option (State σ) :=
  match xioctl k fuel st fd Request.VIDIOC_CROPCAP
      { CLEAR with type := V4L2_BUF_TYPE_VIDEO_CAPTURE } with
  | none => none
  | some (cc, st1) =>
    if cc.ret = 0 then
      match xioctl k fuel st1 fd Request.VIDIOC_S_CROP
          { CLEAR with type := V4L2_BUF_TYPE_VIDEO_CAPTURE, rect := cc.arg.rect } with
      | none => none
      | some (_, st2) => some st2
    else some st1

/-- The loop `for (n_buffers = 0; n_buffers < req.count; n_buffers++)` of
`idlv4l2_init`, entered after `n_buffers = 0`. The counter is the number of
iterations left, `req.count - n_buffers`. The flag is `true` when the loop ran
to its end and `false` when the body executed `return 0`. -/
def mapLoop {σ : Type} (k : Kernel σ) (fuel : Nat) (fd : Int) :
    Nat → State σ → Option (Bool × State σ)
  | 0, st => some (true, st)
  | m + 1, st =>
    match xioctl k fuel st fd Request.VIDIOC_QUERYBUF (bufArg st.n_buffers) with
    | none => none
    | some (b, st1) =>
      if b.ret = -1 then some (false, st1)
      else
        let mp := k.v4l2_mmap st1.world b.arg.length fd b.arg.offset
        let st2 : State σ :=
          { st1 with
              world := mp.2,
              buffers := st1.buffers.set st1.n_buffers
                { start := mp.1, length := b.arg.length },
              trace := st1.trace ++ [Event.v4l2_mmap b.arg.length b.arg.offset mp.1] }
        if mp.1 = MAP_FAILED then some (false, st2)
        else mapLoop k fuel fd m { st2 with n_buffers := st2.n_buffers + 1 }

/-- The first part of `idlv4l2_init`, up to and including the format request:
capability query and checks, `selectInput`, then `VIDIOC_S_FMT` with the fixed
defaults. The result is `none` where the C code executes `return 0`, and the
format structure as the device filled it in otherwise. `cap` is not
initialised in the C code and is taken as zero. -/
def negotiate {σ : Type} (k : Kernel σ) (fuel : Nat) (st : State σ) (fd : Int) :
    Option (Option IoctlResult × State σ) :=
  match xioctl k fuel st fd Request.VIDIOC_QUERYCAP CLEAR with
  | none => none
  | some (cap, st1) =>
    if cap.ret = -1 then some (none, st1)
    else if cap.arg.capabilities &&& V4L2_CAP_VIDEO_CAPTURE = 0 then some (none, st1)
    else if cap.arg.capabilities &&& V4L2_CAP_STREAMING = 0 then some (none, st1)
    else
      match selectInput k fuel st1 fd with
      | none => none
      | some st2 =>
        match xioctl k fuel st2 fd Request.VIDIOC_S_FMT fmtArg with
        | none => none
        | some (fmt, st3) =>
          if fmt.ret = -1 then some (none, st3) else some (some fmt, st3)

/-- The state after `buffers = calloc(req.count, sizeof(*buffers))` answered
`ok`: zeroed descriptors, or null (the empty list) when the allocation
failed. -/
def afterCalloc {σ : Type} (st : State σ) (count : Nat) (c : Bool × σ) : State σ :=
  { st with
      world := c.2,
      buffers := if c.1 then List.replicate count { start := 0, length := 0 } else [],
      trace := st.trace ++ [Event.calloc count c.1] }

/-- The function `idlv4l2_init`: `fd` is `*argv[1]`, width and height are
stored through `argv[2]` and `argv[3]`. -/
def idlv4l2_init {σ : Type} (k : Kernel σ) (fuel : Nat) (st : State σ) (fd : Int) :
    Option (Int × State σ) :=
  match negotiate k fuel st fd with
  | none => none
  | some (none, st3) => some (0, st3)
  | some (some fmt, st3) =>
    match xioctl k fuel st3 fd Request.VIDIOC_REQBUFS reqArg with
    | none => none
    | some (req, st4) =>
      if req.ret = -1 then some (0, st4)
      else if req.arg.count < 2 then some (0, st4)
      else
        let c := k.calloc st4.world req.arg.count
        if !c.1 then some (0, afterCalloc st4 req.arg.count c)
        else
          match mapLoop k fuel fd req.arg.count
              { afterCalloc st4 req.arg.count c with n_buffers := 0 } with
          | none => none
          | some (false, st6) => some (0, st6)
          | some (true, st6) =>
            some (1, (st6.log (Event.store 2 (IDL_LONG_cast fmt.arg.width))).log
                        (Event.store 3 (IDL_LONG_cast fmt.arg.height)))

/-! ## `idlv4l2_uninit` -/

/-- The loop `do { ... r = select(...); } while ((r == -1) && (errno = EINTR))`
of `idlv4l2_readframe`. The second operand of `&&` is an assignment: it is
evaluated only when `r == -1`, stores `EINTR` in `errno`, and its value is the
value stored. The first argument bounds the number of `select` calls. -/
def waitLoop {σ : Type} (k : Kernel σ) : Nat → State σ → Int → Option (Int × State σ)
  | 0, _, _ => none
  | fuel + 1, st, fd =>
    let s := k.select st.world fd
    let st1 : State σ :=
      { st with world := s.2, errno := s.1.errno, trace := st.trace ++ [Event.select s.1] }
    if s.1.ret = -1 then
      let st2 : State σ := { st1 with errno := EINTR }
      if st2.errno ≠ 0 then waitLoop k fuel st2 fd else some (s.1.ret, st2)
    else some (s.1.ret, st1)

/-- The argument of the dequeue: `CLEAR(buf)`, then `type` and `memory`. -/
def dqArg : Arg :=
  { CLEAR with type := V4L2_BUF_TYPE_VIDEO_CAPTURE, memory := V4L2_MEMORY_MMAP }

/-- The statement `memcpy(argv[2], buffers[buf.index].start, buf.length)` of
`idlv4l2_readframe`, where `d` is `buf` as the dequeue left it. -/
def copyFrame {σ : Type} (k : Kernel σ) (st : State σ) (d : Arg) : State σ :=
  { st with
      image := fun j =>
        if j < d.length then k.peek st.world ((st.buf d.index).start + j) else st.image j,
      trace := st.trace ++ [Event.memcpy (st.buf d.index).start d.length] }

/-- The function `idlv4l2_readframe`: `fd` is `*argv[1]`, the image region is
`argv[2]`. -/
def idlv4l2_readframe {σ : Type} (k : Kernel σ) (fuel : Nat) (st : State σ)
    (fd : Int) : Option (Int × State σ) :=
  match waitLoop k fuel st fd with
  | none => none
  | some (r, st1) =>
    if r ≤ 0 then some (0, st1)
    else
      match xioctl k fuel st1 fd Request.VIDIOC_DQBUF dqArg with
      | none => none
      | some (d, st2) =>
        if d.ret = -1 then some (0, st2)
        else if d.arg.index ≥ st2.n_buffers then some (0, st2)
        else
          match xioctl k fuel (copyFrame k st2 d.arg) fd Request.VIDIOC_QBUF d.arg with
          | none => none
          | some (q, st4) => if q.ret = -1 then some (0, st4) else some (1, st4)

/-! ## Reading the log -/

/-- The requests in a log, in order: request code and `index` member of the
argument passed. -/
def requestsOf : List Event → List (Request × Nat)
  | [] => []
  | Event.xioctl q a _ :: es => (q, a.index) :: requestsOf es
  | _ :: es => requestsOf es

/-- Is this entry a request with code `q`? -/
def Event.isRequest (q : Request) : Event → Bool
  | Event.xioctl q1 _ _ => q1 == q
  | _ => false

/-- Is this entry a `select` call? -/
def Event.isSelect : Event → Bool
  | Event.select _ => true
  | _ => false

/-- Is this entry a `memcpy` into the image region? -/
def Event.isMemcpy : Event → Bool
  | Event.memcpy _ _ => true
  | _ => false

/-- Is this entry a `v4l2_mmap` call? -/
def Event.isMmap : Event → Bool
  | Event.v4l2_mmap _ _ _ => true
  | _ => false

/-- Is this entry a `v4l2_mmap` call that returned a mapping? -/
def Event.isMapped : Event → Bool
  | Event.v4l2_mmap _ _ addr => addr != MAP_FAILED
  | _ => false

/-- Is this entry a `v4l2_munmap` call? -/
def Event.isMunmap : Event → Bool
  | Event.v4l2_munmap _ _ _ => true
  | _ => false

/-- Is this entry a `v4l2_open` call? -/
def Event.isOpen : Event → Bool
  | Event.v4l2_open _ _ => true
  | _ => false

/-- Is this entry a store through an output argument? -/
def Event.isStore : Event → Bool
  | Event.store _ _ => true
  | _ => false

/-! ## A scripted device for worked examples -/

/-- The answers of a scripted device. The world state of the scripted device
is the number of calls made so far; `ioctl` and `select` may answer by that
number, `mmap` answers by offset and `munmap` by address. -/
structure Script where
  stat : StatResult
  fd : Int
  ioctl : Nat → Request → Arg → IoctlResult
  callocOk : Bool
  mmap : Nat → Nat
  munmap : Nat → Int
  select : Nat → SelectResult
  peek : Nat → Nat

/-- The device that plays a script. -/
def Script.kernel (sc : Script) : Kernel Nat where
  stat := fun t _ => (sc.stat, t + 1)
  v4l2_open := fun t _ _ _ => (sc.fd, t + 1)
  v4l2_ioctl := fun t _ q a => (sc.ioctl t q a, t + 1)
  calloc := fun t _ => (sc.callocOk, t + 1)
  v4l2_mmap := fun t _ _ off => (sc.mmap off, t + 1)
  v4l2_munmap := fun t start _ => (sc.munmap start, t + 1)
  free := fun t => t + 1
  select := fun t _ => (sc.select t, t + 1)
  peek := fun _ a => sc.peek a

/-- The ioctl answers of a working camera that grants `n` buffers of 16 bytes,
clamps the format to 320 x 240, and hands back buffer `dq` with length `len`
on every dequeue. -/
def cameraIoctl (n dq len : Nat) (_t : Nat) (q : Request) (a : Arg) : IoctlResult :=
  match q with
  | Request.VIDIOC_QUERYCAP =>
    { ret := 0, errno := 0, arg := { a with capabilities := 0x04000001 } }
  | Request.VIDIOC_S_FMT =>
    { ret := 0, errno := 0, arg := { a with width := 320, height := 240 } }
  | Request.VIDIOC_REQBUFS =>
    { ret := 0, errno := 0, arg := { a with count := n } }
  | Request.VIDIOC_QUERYBUF =>
    { ret := 0, errno := 0, arg := { a with length := 16, offset := 16 * a.index } }
  | Request.VIDIOC_DQBUF =>
    { ret := 0, errno := 0, arg := { a with index := dq, length := len } }
  | _ => { ret := 0, errno := 0, arg := a }

/-- A working camera: character device, descriptor 3, `n` buffers mapped at
`4096 + offset`, a frame always ready. -/
def camera (n dq len : Nat) : Script where
  stat := { ret := 0, st_mode := 0o020660 }
  fd := 3
  ioctl := cameraIoctl n dq len
  callocOk := true
  mmap := fun off => 4096 + off
  munmap := fun _ => 0
  select := fun _ => { ret := 1, errno := 0 }
  peek := fun a => a % 256

/-- The state before any call: no pool, nothing logged, a zeroed image. -/
def fresh : State Nat :=
  { world := 0, errno := 0, buffers := [], n_buffers := 0, image := fun _ => 0,
    trace := [] }

/-- A state holding a pool of two 16-byte buffers, as `idlv4l2_init` leaves it
on the working camera. -/
def pooled : State Nat :=
  { fresh with buffers := [{ start := 4096, length := 16 }, { start := 4112, length := 16 }],
               n_buffers := 2 }

/-- Value of `EBADF` in `<errno.h>`. -/
def EBADF : Nat := 9

/-- The working camera, except that the path is a regular file (mode 0100644). -/
def regularFile : Script :=
  { camera 2 0 16 with stat := { ret := 0, st_mode := 0o100644 } }

/-- The working camera, except that no frame ever becomes ready: `select`
returns 0. -/
def idle : Script :=
  { camera 2 0 16 with select := fun _ => { ret := 0, errno := 0 } }

/-- The working camera, except that the first `select` fails with `EBADF`; the
next one reports a frame. -/
def badWait : Script :=
  { camera 2 0 16 with
      select := fun t => if t = 0 then { ret := -1, errno := EBADF } else { ret := 1, errno := 0 } }

/-- The working camera, except that mapping fails for every buffer but the
first. -/
def mapFails : Script :=
  { camera 2 0 16 with mmap := fun off => if off = 0 then 4096 else MAP_FAILED }

/-- The working camera, except that every `select` fails with `EBADF`. -/
def deadWait : Script :=
  { camera 2 0 16 with select := fun _ => { ret := -1, errno := EBADF } }

/-- The working camera, except that one ioctl is interrupted (`EINTR`): the
device answers by the number of calls made so far, and the ioctl that arrives
as call number 6 fails with `EINTR`. From the state `fresh` that call is the
buffer query for buffer 0 in `idlv4l2_init`. -/
def interrupted : Script :=
  { camera 2 0 16 with
      ioctl := fun t q a =>
        if t = 6 then { ret := -1, errno := EINTR, arg := a } else cameraIoctl 2 0 16 t q a }

/-- The working camera, except that the format request comes back with width
4294967295 and height 2147483648, the two largest patterns of interest of the
32-bit unsigned members `fmt.fmt.pix.width` and `fmt.fmt.pix.height`. -/
def wideFormat : Script :=
  { camera 2 0 16 with
      ioctl := fun t q a =>
        if q = Request.VIDIOC_S_FMT then
          { ret := 0, errno := 0, arg := { a with width := 4294967295, height := 2147483648 } }
        else cameraIoctl 2 0 16 t q a }

/-! ## Expected logs -/

/-- The log of enqueue requests for buffers `i`, `i + 1`, ... with the given
results. -/
def queueEvents : Nat → List IoctlResult → List Event
  | _, [] => []
  | i, r :: rs => Event.xioctl Request.VIDIOC_QBUF (bufArg i) r :: queueEvents (i + 1) rs

/-- The log of the mapping loop for buffers `i`, `i + 1`, ...: for each, the
buffer query with its result, then the mapping of the reported length and
offset with the address it returned. -/
def poolEvents : Nat → List (IoctlResult × Nat) → List Event
  | _, [] => []
  | i, p :: ps =>
    Event.xioctl Request.VIDIOC_QUERYBUF (bufArg i) p.1
      :: Event.v4l2_mmap p.1.arg.length p.1.arg.offset p.2
      :: poolEvents (i + 1) ps

/-- The descriptors recorded for a list of query results and mapped addresses. -/
def poolOf (ps : List (IoctlResult × Nat)) : List buffer :=
  ps.map (fun p => { start := p.2, length := p.1.arg.length })

/-- Is this entry one of the requests of `negotiate`? -/
def Event.isNegotiation : Event → Bool
  | Event.xioctl q _ _ =>
    q == Request.VIDIOC_QUERYCAP || q == Request.VIDIOC_CROPCAP ||
      q == Request.VIDIOC_S_CROP || q == Request.VIDIOC_S_FMT
  | _ => false

/-- The answers `ps` are what the device gave to the mapping loop of
`idlv4l2_init` started in state `st`, and the loop then ends in state `st1`:
for each element of `ps` in turn, the buffer query for buffer `n_buffers`,
submitted in the state reached so far, returned the first component, the
`v4l2_mmap` call made right after it with the reported length and offset
returned the second component, and the next pass starts in the state with
that descriptor recorded and `n_buffers` incremented. -/
def mapRun {σ : Type} (k : Kernel σ) (fuel : Nat) (fd : Int) :
    List (IoctlResult × Nat) → State σ → State σ → Prop
  | [], st, st1 => st1 = st
  | p :: ps, st, st1 =>
    ∃ s1 : State σ,
      xioctl k fuel st fd Request.VIDIOC_QUERYBUF (bufArg st.n_buffers) = some (p.1, s1) ∧
      (k.v4l2_mmap s1.world p.1.arg.length fd p.1.arg.offset).1 = p.2 ∧
      mapRun k fuel fd ps
        { s1 with
            world := (k.v4l2_mmap s1.world p.1.arg.length fd p.1.arg.offset).2,
            buffers := s1.buffers.set s1.n_buffers { start := p.2, length := p.1.arg.length },
            n_buffers := s1.n_buffers + 1,
            trace := s1.trace ++ [Event.v4l2_mmap p.1.arg.length p.1.arg.offset p.2] }
        st1

/-! ## Basic facts about `xioctl` and the wait loop -/

/-- A request that completes adds exactly one entry to the log and leaves the
pool and the image region alone. -/
theorem xioctl_some {σ : Type} {k : Kernel σ} {fuel : Nat} {st st1 : State σ} {fd : Int}
    {q : Request} {a : Arg} {r : IoctlResult}
    (h : xioctl k fuel st fd q a = some (r, st1)) :
    st1.trace = st.trace ++ [Event.xioctl q a r] ∧ st1.buffers = st.buffers ∧
      st1.n_buffers = st.n_buffers ∧ st1.image = st.image := by
  unfold xioctl at h
  cases hx : xioctlLoop k fuel st.world fd q a with
  | none => simp [hx] at h
  | some p =>
    obtain ⟨r0, w⟩ := p
    simp only [hx, Option.some.injEq, Prod.mk.injEq] at h
    obtain ⟨rfl, rfl⟩ := h
    simp

/-- When the wait loop returns, every `select` before the last one returned
-1, the last one returned the value handed back, that value is not -1, and
the pool and the image region are untouched. -/
theorem waitLoop_some {σ : Type} {k : Kernel σ} {fd : Int} :
    ∀ (fuel : Nat) (st st1 : State σ) (r : Int),
      waitLoop k fuel st fd = some (r, st1) →
      r ≠ -1 ∧ st1.buffers = st.buffers ∧ st1.n_buffers = st.n_buffers ∧
        st1.image = st.image ∧
        ∃ evs err, st1.trace = st.trace ++ evs ++ [Event.select { ret := r, errno := err }] ∧
          ∀ e ∈ evs, ∃ err1, e = Event.select { ret := -1, errno := err1 } := by
  intro fuel
  induction fuel with
  | zero => intro st st1 r h; simp [waitLoop] at h
  | succ n ih =>
    intro st st1 r h
    rw [waitLoop] at h
    by_cases hr : (k.select st.world fd).1.ret = -1
    · simp only [hr, if_true] at h
      have hne : EINTR ≠ 0 := by decide
      simp only [ne_eq, hne, not_false_eq_true, if_true] at h
      obtain ⟨h1, h2, h3, h4, evs, err, h5, h6⟩ := ih _ _ _ h
      refine ⟨h1, h2, h3, h4, Event.select (k.select st.world fd).1 :: evs, err, ?_, ?_⟩
      · rw [h5]; simp
      · intro e he
        rcases List.mem_cons.1 he with rfl | he
        · refine ⟨(k.select st.world fd).1.errno, ?_⟩
          rw [← hr]
        · exact h6 e he
    · simp only [hr, if_false, Option.some.injEq, Prod.mk.injEq] at h
      obtain ⟨rfl, rfl⟩ := h
      exact ⟨hr, rfl, rfl, rfl, [], (k.select st.world fd).1.errno, by simp, by simp⟩

/-- The wait loop never gives up on a `select` that returns -1: on a device
whose `select` always returns -1, whatever `errno` it reports, no bound on the
number of calls is enough for the loop to return. -/
theorem waitLoop_never_returns {σ : Type} (k : Kernel σ) (fd : Int)
    (hfail : ∀ w, (k.select w fd).1.ret = -1) :
    ∀ (fuel : Nat) (st : State σ), waitLoop k fuel st fd = none := by
  intro fuel
  induction fuel with
  | zero => intro st; rfl
  | succ n ih =>
    intro st
    rw [waitLoop]
    have hne : EINTR ≠ 0 := by decide
    simp only [hfail, if_true, ne_eq, hne, not_false_eq_true]
    exact ih _

/-! ## `idlv4l2_open` -/

/-- C9: when `stat` fails, or succeeds on a file that is not character-special,
`idlv4l2_open` returns 0 and the only call it makes is that `stat`: the device
is not opened and nothing is stored through the descriptor output. -/
theorem open_rejects_non_device {σ : Type} (k : Kernel σ) (st : State σ) (device : String)
    (h : (k.stat st.world device).1.ret = -1 ∨
      ((k.stat st.world device).1.ret ≠ -1 ∧
        S_ISCHR (k.stat st.world device).1.st_mode = false)) :
    (idlv4l2_open k st device).1 = 0 ∧
      (idlv4l2_open k st device).2.trace
        = st.trace ++ [Event.stat device (k.stat st.world device).1] ∧
      (∀ e ∈ (idlv4l2_open k st device).2.trace.drop st.trace.length,
        e.isOpen = false ∧ e.isStore = false) := by
  have key : (idlv4l2_open k st device).1 = 0 ∧
      (idlv4l2_open k st device).2.trace
        = st.trace ++ [Event.stat device (k.stat st.world device).1] := by
    unfold idlv4l2_open
    rcases h with h | ⟨h1, h2⟩
    · simp [h]
    · simp [h1, h2]
  refine ⟨key.1, key.2, ?_⟩
  rw [key.2]
  intro e he
  simp at he
  subst he
  exact ⟨rfl, rfl⟩

/-- C9, worked example: a regular file (mode 0100644) on an otherwise working
device is rejected after the `stat`. -/
theorem open_rejects_non_device_witness :
    ((regularFile.kernel.stat fresh.world "/tmp/movie").1.ret ≠ -1 ∧
      S_ISCHR (regularFile.kernel.stat fresh.world "/tmp/movie").1.st_mode = false) ∧
    (idlv4l2_open regularFile.kernel fresh "/tmp/movie").1 = 0 ∧
    (idlv4l2_open regularFile.kernel fresh "/tmp/movie").2.trace
      = [Event.stat "/tmp/movie" { ret := 0, st_mode := 0o100644 }] :=
  ⟨⟨by decide, by decide⟩,
   (open_rejects_non_device regularFile.kernel fresh "/tmp/movie"
      (Or.inr ⟨by decide, by decide⟩)).1,
   (open_rejects_non_device regularFile.kernel fresh "/tmp/movie"
      (Or.inr ⟨by decide, by decide⟩)).2.1⟩

/-! ## `idlv4l2_readframe` -/

/-- C8: when the wait ends with `select` returning 0 (nothing ready within the
timeout), `idlv4l2_readframe` returns 0 and the only calls it has made are
`select` calls, the last of which returned 0 and the earlier ones -1: no
dequeue, no copy, no enqueue; the image region is untouched. -/
theorem readframe_timeout {σ : Type} (k : Kernel σ) (fuel : Nat) (st st1 : State σ)
    (fd : Int) (hw : waitLoop k fuel st fd = some (0, st1)) :
    idlv4l2_readframe k fuel st fd = some (0, st1) ∧ st1.image = st.image ∧
      (∃ evs err, st1.trace = st.trace ++ evs ++ [Event.select { ret := 0, errno := err }] ∧
        ∀ e ∈ evs, ∃ err1, e = Event.select { ret := -1, errno := err1 }) ∧
      ∃ evs, st1.trace = st.trace ++ evs ∧
        ∀ e ∈ evs, e.isSelect = true ∧ e.isMemcpy = false ∧
          e.isRequest Request.VIDIOC_DQBUF = false ∧
          e.isRequest Request.VIDIOC_QBUF = false := by
  obtain ⟨_, _, _, himg, evs, err, htr, hev⟩ := waitLoop_some fuel st st1 0 hw
  refine ⟨?_, himg, ⟨evs, err, htr, hev⟩,
    evs ++ [Event.select { ret := 0, errno := err }], ?_, ?_⟩
  · unfold idlv4l2_readframe
    simp [hw]
  · rw [htr, List.append_assoc]
  · intro e he
    rcases List.mem_append.1 he with he | he
    · obtain ⟨err1, rfl⟩ := hev e he
      exact ⟨rfl, rfl, rfl, rfl⟩
    · simp at he
      subst he
      exact ⟨rfl, rfl, rfl, rfl⟩

/-- C8, worked example: on a camera with no frame ready the call returns 0
after a single `select`. -/
theorem readframe_timeout_witness :
    waitLoop idle.kernel 1 pooled 3
        = some (0, { pooled with
                      world := 1, trace := [Event.select { ret := 0, errno := 0 }] }) ∧
      idlv4l2_readframe idle.kernel 1 pooled 3
        = some (0, { pooled with
                      world := 1, trace := [Event.select { ret := 0, errno := 0 }] }) :=
  ⟨rfl, (readframe_timeout idle.kernel 1 pooled _ 3 rfl).1⟩

/-- C2: after a successful wait and a successful dequeue whose response
carries an index at or above the pool count, `idlv4l2_readframe` returns 0,
leaves the image region as it was, and has made no copy and no enqueue. -/
theorem readframe_overrun {σ : Type} (k : Kernel σ) (fuel : Nat) (st st1 st2 : State σ)
    (fd : Int) (r : Int) (d : IoctlResult)
    (hw : waitLoop k fuel st fd = some (r, st1)) (hr : 0 < r)
    (hd : xioctl k fuel st1 fd Request.VIDIOC_DQBUF dqArg = some (d, st2))
    (hok : d.ret ≠ -1) (hi : st.n_buffers ≤ d.arg.index) :
    idlv4l2_readframe k fuel st fd = some (0, st2) ∧ st2.image = st.image ∧
      ∃ evs, st2.trace = st.trace ++ evs ∧
        ∀ e ∈ evs, e.isMemcpy = false ∧ e.isRequest Request.VIDIOC_QBUF = false := by
  obtain ⟨_, _, hn1, himg1, evs, err, htr1, hev⟩ := waitLoop_some fuel st st1 r hw
  obtain ⟨htr2, _, hn2, himg2⟩ := xioctl_some hd
  refine ⟨?_, by rw [himg2, himg1], ?_⟩
  · unfold idlv4l2_readframe
    have hr1 : ¬ r ≤ 0 := not_le.2 hr
    have hi1 : d.arg.index ≥ st2.n_buffers := by rw [hn2, hn1]; exact hi
    simp [hw, hr1, hd, hok, hi1]
  · refine ⟨evs ++ [Event.select { ret := r, errno := err }] ++
        [Event.xioctl Request.VIDIOC_DQBUF dqArg d], ?_, ?_⟩
    · rw [htr2, htr1]; simp
    · intro e he
      simp only [List.mem_append, List.mem_singleton] at he
      rcases he with (he | he) | he
      · obtain ⟨err1, rfl⟩ := hev e he
        exact ⟨rfl, rfl⟩
      · subst he; exact ⟨rfl, rfl⟩
      · subst he; exact ⟨rfl, rfl⟩

/-- C2, worked example: the camera hands back index 5 for a pool of two. -/
theorem readframe_overrun_witness :
    ∃ st1 st2 d,
      waitLoop (camera 2 5 16).kernel 1 pooled 3 = some (1, st1) ∧
      xioctl (camera 2 5 16).kernel 1 st1 3 Request.VIDIOC_DQBUF dqArg = some (d, st2) ∧
      d.ret ≠ -1 ∧ pooled.n_buffers ≤ d.arg.index ∧
      idlv4l2_readframe (camera 2 5 16).kernel 1 pooled 3 = some (0, st2) ∧
      st2.image = pooled.image ∧
      st2.trace = [Event.select { ret := 1, errno := 0 },
        Event.xioctl Request.VIDIOC_DQBUF dqArg
          { ret := 0, errno := 0, arg := { dqArg with index := 5, length := 16 } }] :=
  ⟨_, _, _, rfl, rfl, by decide, by decide,
    (readframe_overrun (camera 2 5 16).kernel 1 pooled _ _ 3 1 _ rfl (by decide) rfl
      (by decide) (by decide)).1,
    (readframe_overrun (camera 2 5 16).kernel 1 pooled _ _ 3 1 _ rfl (by decide) rfl
      (by decide) (by decide)).2.1, rfl⟩

/-- C1, counterexample: the pool descriptor 0 records 16 bytes, the dequeue
response carries index 0 and length 24, and the call copies 24 bytes: the log
shows `memcpy` with 24, and the byte at offset 20 of the image region is
overwritten with the byte at address 4096 + 20. -/
theorem readframe_copy_length_counterexample :
    (pooled.buf 0).length = 16 ∧ pooled.n_buffers = 2 ∧ pooled.image 20 = 0 ∧
    (idlv4l2_readframe (camera 2 0 24).kernel 1 pooled 3).map
        (fun p => (p.1, p.2.trace, p.2.image 20))
      = some (1,
          [Event.select { ret := 1, errno := 0 },
           Event.xioctl Request.VIDIOC_DQBUF dqArg
             { ret := 0, errno := 0, arg := { dqArg with index := 0, length := 24 } },
           Event.memcpy 4096 24,
           Event.xioctl Request.VIDIOC_QBUF { dqArg with index := 0, length := 24 }
             { ret := 0, errno := 0, arg := { dqArg with index := 0, length := 24 } }],
          20) := by
  decide

/-- C1, as amended: after a successful wait and a successful dequeue whose
response `d` carries an index `i` below the pool count, `idlv4l2_readframe`
copies `d.arg.length` bytes (the length member of the dequeue response) from
the start of the mapping of pool descriptor `i` to the start of the image
region and leaves the rest of the region alone; after the copy it submits one
enqueue request with the dequeued structure, hence with index `i`; and it
returns 1 when that enqueue succeeds and 0 when it fails. -/
theorem readframe_copies_and_requeues {σ : Type} (k : Kernel σ) (fuel : Nat)
    (st st1 st2 st4 : State σ) (fd : Int) (r : Int) (d q : IoctlResult)
    (hw : waitLoop k fuel st fd = some (r, st1)) (hr : 0 < r)
    (hd : xioctl k fuel st1 fd Request.VIDIOC_DQBUF dqArg = some (d, st2))
    (hok : d.ret ≠ -1) (hi : d.arg.index < st.n_buffers)
    (hq : xioctl k fuel (copyFrame k st2 d.arg) fd Request.VIDIOC_QBUF d.arg = some (q, st4)) :
    idlv4l2_readframe k fuel st fd = some (if q.ret = -1 then 0 else 1, st4) ∧
      st4.trace = st2.trace ++
        [Event.memcpy (st.buf d.arg.index).start d.arg.length,
         Event.xioctl Request.VIDIOC_QBUF d.arg q] ∧
      requestsOf [Event.xioctl Request.VIDIOC_QBUF d.arg q]
        = [(Request.VIDIOC_QBUF, d.arg.index)] ∧
      (∀ j, j < d.arg.length →
        st4.image j = k.peek st2.world ((st.buf d.arg.index).start + j)) ∧
      (∀ j, d.arg.length ≤ j → st4.image j = st.image j) := by
  obtain ⟨_, hb1, hn1, himg1, _⟩ := waitLoop_some fuel st st1 r hw
  obtain ⟨_, hb2, hn2, himg2⟩ := xioctl_some hd
  obtain ⟨htr4, _, _, himg4⟩ := xioctl_some hq
  have hbuf : st2.buf d.arg.index = st.buf d.arg.index := by
    unfold State.buf; rw [hb2, hb1]
  refine ⟨?_, ?_, rfl, ?_, ?_⟩
  · unfold idlv4l2_readframe
    have hr1 : ¬ r ≤ 0 := not_le.2 hr
    have hi1 : ¬ d.arg.index ≥ st2.n_buffers := by rw [hn2, hn1]; exact not_le.2 hi
    simp only [hw, hr1, hd, hok, hi1, hq, if_false]
    by_cases hqr : q.ret = -1 <;> simp [hqr]
  · rw [htr4]
    simp [copyFrame, hbuf]
  · intro j hj
    rw [himg4]
    simp [copyFrame, hj, hbuf]
  · intro j hj
    rw [himg4]
    have : ¬ j < d.arg.length := not_lt.2 hj
    simp [copyFrame, this, himg2, himg1]

/-- C1 as amended, worked example: the camera hands back buffer 1 with length
16; the call copies 16 bytes from address 4112 and requeues buffer 1. -/
theorem readframe_copies_and_requeues_witness :
    ∃ st1 st2 st4 d q,
      waitLoop (camera 2 1 16).kernel 1 pooled 3 = some (1, st1) ∧
      xioctl (camera 2 1 16).kernel 1 st1 3 Request.VIDIOC_DQBUF dqArg = some (d, st2) ∧
      d.ret ≠ -1 ∧ d.arg.index < pooled.n_buffers ∧
      xioctl (camera 2 1 16).kernel 1 (copyFrame (camera 2 1 16).kernel st2 d.arg) 3
        Request.VIDIOC_QBUF d.arg = some (q, st4) ∧
      idlv4l2_readframe (camera 2 1 16).kernel 1 pooled 3
        = some (if q.ret = -1 then 0 else 1, st4) ∧
      st4.trace = st2.trace ++
        [Event.memcpy (pooled.buf d.arg.index).start d.arg.length,
         Event.xioctl Request.VIDIOC_QBUF d.arg q] ∧
      d.arg.index = 1 ∧ d.arg.length = 16 ∧ (pooled.buf 1).start = 4112 ∧ q.ret = 0 :=
  ⟨_, _, _, _, _, rfl, rfl, by decide, by decide, rfl,
    (readframe_copies_and_requeues (camera 2 1 16).kernel 1 pooled _ _ _ 3 1 _ _ rfl
      (by decide) rfl (by decide) (by decide) rfl).1,
    (readframe_copies_and_requeues (camera 2 1 16).kernel 1 pooled _ _ _ 3 1 _ _ rfl
      (by decide) rfl (by decide) (by decide) rfl).2.1, rfl, rfl, rfl, rfl⟩

/-- C7, the code at the failing input: the first `select` fails with `EBADF`,
which is not `EINTR`; the call does not return 0 there but waits again, then
dequeues, copies, requeues and returns 1. -/
theorem readframe_retries_any_wait_error :
    EBADF ≠ EINTR ∧
    (idlv4l2_readframe badWait.kernel 2 pooled 3).map (fun p => (p.1, p.2.trace))
      = some (1,
          [Event.select { ret := -1, errno := EBADF },
           Event.select { ret := 1, errno := 0 },
           Event.xioctl Request.VIDIOC_DQBUF dqArg
             { ret := 0, errno := 0, arg := { dqArg with index := 0, length := 16 } },
           Event.memcpy 4096 16,
           Event.xioctl Request.VIDIOC_QBUF { dqArg with index := 0, length := 16 }
             { ret := 0, errno := 0, arg := { dqArg with index := 0, length := 16 } }]) := by
  decide

/-! ## `idlv4l2_startcapture` -/

/-- The enqueue log splits at its last entry. -/
theorem queueEvents_append (rs : List IoctlResult) (r : IoctlResult) :
    ∀ i, queueEvents i (rs ++ [r])
      = queueEvents i rs ++ [Event.xioctl Request.VIDIOC_QBUF (bufArg (i + rs.length)) r] := by
  induction rs with
  | nil => intro i; simp [queueEvents]
  | cons x xs ih =>
    intro i
    simp [queueEvents, ih, Nat.add_assoc, Nat.add_comm 1]

/-- A request of `negotiate` is no buffer query, no mapping and no store. -/
theorem isNegotiation_excludes (e : Event) (h : e.isNegotiation = true) :
    e.isRequest Request.VIDIOC_QUERYBUF = false ∧ e.isMmap = false ∧ e.isStore = false ∧
      e.isMunmap = false := by
  cases e with
  | xioctl q a r => cases q <;> simp_all [Event.isNegotiation, Event.isRequest, Event.isMmap,
      Event.isStore, Event.isMunmap]
  | _ => simp [Event.isNegotiation] at h

/-- The block `Select video input` only adds cropping requests to the log. -/
theorem selectInput_some {σ : Type} {k : Kernel σ} {fuel : Nat} {st st2 : State σ} {fd : Int}
    (h : selectInput k fuel st fd = some st2) :
    ∃ evs, st2.trace = st.trace ++ evs ∧ ∀ e ∈ evs, e.isNegotiation = true := by
  unfold selectInput at h
  cases hc : xioctl k fuel st fd Request.VIDIOC_CROPCAP
      { CLEAR with type := V4L2_BUF_TYPE_VIDEO_CAPTURE } with
  | none => simp [hc] at h
  | some p =>
    obtain ⟨cc, s1⟩ := p
    obtain ⟨htr1, -, -, -⟩ := xioctl_some hc
    simp only [hc] at h
    by_cases h0 : cc.ret = 0
    · simp only [h0, if_true] at h
      cases hs : xioctl k fuel s1 fd Request.VIDIOC_S_CROP
          { CLEAR with type := V4L2_BUF_TYPE_VIDEO_CAPTURE, rect := cc.arg.rect } with
      | none => simp [hs] at h
      | some p2 =>
        obtain ⟨sc, s2⟩ := p2
        obtain ⟨htr2, -, -, -⟩ := xioctl_some hs
        simp only [hs, Option.some.injEq] at h
        subst h
        refine ⟨_, by rw [htr2, htr1, List.append_assoc], ?_⟩
        intro e he
        simp only [List.mem_append, List.mem_singleton] at he
        rcases he with rfl | rfl <;> rfl
    · simp only [h0, if_false, Option.some.injEq] at h
      subst h
      refine ⟨_, htr1, ?_⟩
      intro e he
      simp only [List.mem_singleton] at he
      subst he
      rfl

/-- When `negotiate` returns, it has only added its own requests to the log;
when it hands on a format, that is the result of a successful format request,
which is the last entry. -/
theorem negotiate_some {σ : Type} {k : Kernel σ} {fuel : Nat} {st st3 : State σ} {fd : Int}
    {x : Option IoctlResult} (h : negotiate k fuel st fd = some (x, st3)) :
    ∃ evs, st3.trace = st.trace ++ evs ∧ (∀ e ∈ evs, e.isNegotiation = true) ∧
      ∀ fmt, x = some fmt →
        fmt.ret ≠ -1 ∧ ∃ pre, evs = pre ++ [Event.xioctl Request.VIDIOC_S_FMT fmtArg fmt] := by
  unfold negotiate at h
  cases hq : xioctl k fuel st fd Request.VIDIOC_QUERYCAP CLEAR with
  | none => simp [hq] at h
  | some p =>
    obtain ⟨cap, s1⟩ := p
    obtain ⟨htr1, -, -, -⟩ := xioctl_some hq
    have early : ∀ s : State σ, s = s1 → (none, s) = (x, st3) →
        ∃ evs, st3.trace = st.trace ++ evs ∧ (∀ e ∈ evs, e.isNegotiation = true) ∧
          ∀ fmt, x = some fmt →
            fmt.ret ≠ -1 ∧
              ∃ pre, evs = pre ++ [Event.xioctl Request.VIDIOC_S_FMT fmtArg fmt] := by
      intro s hs heq
      simp only [Prod.mk.injEq] at heq
      obtain ⟨hx, hst⟩ := heq
      subst hx hst hs
      refine ⟨_, htr1, ?_, by intro fmt hf; simp at hf⟩
      intro e he
      simp only [List.mem_singleton] at he
      subst he
      rfl
    simp only [hq] at h
    by_cases h1 : cap.ret = -1
    · simp only [h1, if_true, Option.some.injEq] at h
      exact early _ rfl h
    by_cases h2 : cap.arg.capabilities &&& V4L2_CAP_VIDEO_CAPTURE = 0
    · simp only [h1, h2, if_true, if_false, Option.some.injEq] at h
      exact early _ rfl h
    by_cases h3 : cap.arg.capabilities &&& V4L2_CAP_STREAMING = 0
    · simp only [h1, h2, h3, if_true, if_false, Option.some.injEq] at h
      exact early _ rfl h
    simp only [h1, h2, h3, if_false] at h
    cases hsel : selectInput k fuel s1 fd with
    | none => simp [hsel] at h
    | some s2 =>
      obtain ⟨evs2, htr2, hev2⟩ := selectInput_some hsel
      simp only [hsel] at h
      cases hf : xioctl k fuel s2 fd Request.VIDIOC_S_FMT fmtArg with
      | none => simp [hf] at h
      | some p3 =>
        obtain ⟨fmt, s3⟩ := p3
        obtain ⟨htr3, -, -, -⟩ := xioctl_some hf
        simp only [hf] at h
        have hmem : ∀ e ∈ [Event.xioctl Request.VIDIOC_QUERYCAP CLEAR cap] ++ evs2 ++
            [Event.xioctl Request.VIDIOC_S_FMT fmtArg fmt], e.isNegotiation = true := by
          intro e he
          simp only [List.mem_append, List.mem_singleton] at he
          rcases he with (rfl | he) | rfl
          · rfl
          · exact hev2 e he
          · rfl
        have htr : s3.trace = st.trace ++ ([Event.xioctl Request.VIDIOC_QUERYCAP CLEAR cap] ++
            evs2 ++ [Event.xioctl Request.VIDIOC_S_FMT fmtArg fmt]) := by
          rw [htr3, htr2, htr1]; simp
        by_cases h4 : fmt.ret = -1
        · simp only [h4, if_true, Option.some.injEq, Prod.mk.injEq] at h
          obtain ⟨hx, hst⟩ := h
          subst hx hst
          exact ⟨_, htr, hmem, by intro f hf2; simp at hf2⟩
        · simp only [h4, if_false, Option.some.injEq, Prod.mk.injEq] at h
          obtain ⟨hx, hst⟩ := h
          subst hx hst
          refine ⟨_, htr, hmem, ?_⟩
          intro f hf2
          simp only [Option.some.injEq] at hf2
          subst hf2
          exact ⟨h4, _, rfl⟩

/-- C5: when `idlv4l2_init` reaches the buffer request and that request
succeeds but grants fewer than 2 buffers, `idlv4l2_init` returns 0 right
after it: the log of the call holds no buffer query, no mapping and no store
through the width and height outputs. -/
theorem init_insufficient_buffers {σ : Type} (k : Kernel σ) (fuel : Nat)
    (st st3 st4 : State σ) (fd : Int) (fmt req : IoctlResult)
    (hn : negotiate k fuel st fd = some (some fmt, st3))
    (hr : xioctl k fuel st3 fd Request.VIDIOC_REQBUFS reqArg = some (req, st4))
    (hok : req.ret ≠ -1) (hlt : req.arg.count < 2) :
    idlv4l2_init k fuel st fd = some (0, st4) ∧
      ∃ evs, st4.trace = st.trace ++ evs ∧
        ∀ e ∈ evs, e.isRequest Request.VIDIOC_QUERYBUF = false ∧ e.isMmap = false ∧
          e.isStore = false := by
  obtain ⟨evs, htr3, hev, -⟩ := negotiate_some hn
  obtain ⟨htr4, -, -, -⟩ := xioctl_some hr
  refine ⟨?_, evs ++ [Event.xioctl Request.VIDIOC_REQBUFS reqArg req], ?_, ?_⟩
  · unfold idlv4l2_init
    simp [hn, hr, hok, hlt]
  · rw [htr4, htr3, List.append_assoc]
  · intro e he
    simp only [List.mem_append, List.mem_singleton] at he
    rcases he with he | rfl
    · obtain ⟨h1, h2, h3, -⟩ := isNegotiation_excludes e (hev e he)
      exact ⟨h1, h2, h3⟩
    · exact ⟨rfl, rfl, rfl⟩

/-- C5, worked example: a camera that grants a single buffer. -/
theorem init_insufficient_buffers_witness :
    ∃ st3 st4 fmt req,
      negotiate (camera 1 0 16).kernel 1 fresh 3 = some (some fmt, st3) ∧
      xioctl (camera 1 0 16).kernel 1 st3 3 Request.VIDIOC_REQBUFS reqArg = some (req, st4) ∧
      req.ret ≠ -1 ∧ req.arg.count < 2 ∧
      idlv4l2_init (camera 1 0 16).kernel 1 fresh 3 = some (0, st4) ∧
      req.arg.count = 1 ∧
      requestsOf st4.trace
        = [(Request.VIDIOC_QUERYCAP, 0), (Request.VIDIOC_CROPCAP, 0),
           (Request.VIDIOC_S_CROP, 0), (Request.VIDIOC_S_FMT, 0),
           (Request.VIDIOC_REQBUFS, 0)] ∧
      st4.trace.length = 5 :=
  ⟨_, _, _, _, rfl, rfl, by decide, by decide,
    (init_insufficient_buffers (camera 1 0 16).kernel 1 fresh _ _ 3 _ _ rfl rfl
      (by decide) (by decide)).1, rfl, rfl, rfl⟩

/-- Writing element `n` and keeping the first `n + 1` elements. -/
theorem take_succ_set {α : Type} (d : α) :
    ∀ (l : List α) (n : Nat), n < l.length → (l.set n d).take (n + 1) = l.take n ++ [d] := by
  intro l
  induction l with
  | nil => intro n h; simp at h
  | cons x xs ih =>
    intro n h
    cases n with
    | zero => simp
    | succ n =>
      have h1 : n < xs.length := by simpa using h
      simp [ih n h1]

/-- Writing element `n` does not change the elements from `j` on, for `j`
above `n`. -/
theorem drop_set_above {α : Type} (d : α) :
    ∀ (l : List α) (n j : Nat), n < j → (l.set n d).drop j = l.drop j := by
  intro l
  induction l with
  | nil => intro n j _; simp
  | cons x xs ih =>
    intro n j h
    cases j with
    | zero => omega
    | succ j =>
      cases n with
      | zero => simp
      | succ n => simp [ih n j (by omega)]

/-- When the mapping loop runs to its end, it has queried and mapped the `m`
buffers from `n_buffers` on, in order, every query and every mapping has
succeeded, and it has recorded each length and address in its descriptor. -/
theorem mapLoop_true {σ : Type} {k : Kernel σ} {fuel : Nat} {fd : Int} :
    ∀ (m : Nat) (st st1 : State σ),
      mapLoop k fuel fd m st = some (true, st1) →
      st.n_buffers + m ≤ st.buffers.length →
      ∃ ps : List (IoctlResult × Nat), ps.length = m ∧
        (∀ p ∈ ps, p.1.ret ≠ -1 ∧ p.2 ≠ MAP_FAILED) ∧
        st1.n_buffers = st.n_buffers + m ∧
        st1.trace = st.trace ++ poolEvents st.n_buffers ps ∧
        st1.buffers = st.buffers.take st.n_buffers ++ poolOf ps
          ++ st.buffers.drop (st.n_buffers + m) ∧
        mapRun k fuel fd ps st st1 := by
  intro m
  induction m with
  | zero =>
    intro st st1 h _
    simp only [mapLoop, Option.some.injEq, Prod.mk.injEq, true_and] at h
    subst h
    exact ⟨[], rfl, by simp, rfl, by simp [poolEvents], by simp [poolOf], rfl⟩
  | succ m ih =>
    intro st st1 h hlen
    rw [mapLoop] at h
    cases hq : xioctl k fuel st fd Request.VIDIOC_QUERYBUF (bufArg st.n_buffers) with
    | none => simp [hq] at h
    | some p =>
      obtain ⟨b, s1⟩ := p
      obtain ⟨htr1, hb1, hn1, -⟩ := xioctl_some hq
      simp only [hq] at h
      by_cases h1 : b.ret = -1
      · simp [h1] at h
      by_cases h2 : (k.v4l2_mmap s1.world b.arg.length fd b.arg.offset).1 = MAP_FAILED
      · simp [h1, h2] at h
      simp only [h1, h2, if_false] at h
      obtain ⟨ps, hps, hall, hn, htr, hbuf, hrun⟩ := ih _ _ h (by
        simp only [List.length_set, hb1, hn1]
        omega)
      refine ⟨(b, (k.v4l2_mmap s1.world b.arg.length fd b.arg.offset).1) :: ps,
        ?_, ?_, ?_, ?_, ?_, ⟨s1, hq, rfl, hrun⟩⟩
      · simp [hps]
      · intro p hp
        rcases List.mem_cons.1 hp with rfl | hp
        · exact ⟨h1, h2⟩
        · exact hall p hp
      · rw [hn]
        simp only [hn1]
        omega
      · rw [htr]
        simp only [htr1, hn1, poolEvents, List.append_assoc, List.cons_append, List.nil_append,
          List.singleton_append]
      · rw [hbuf]
        simp only [hb1, hn1]
        rw [take_succ_set _ _ _ (by omega), drop_set_above _ _ _ _ (by omega)]
        simp [poolOf, Nat.add_assoc, Nat.add_comm 1 m]

/-- The query and the mapping of each buffer are in the log of the mapping
loop, under that buffer's index. -/
theorem poolEvents_mem :
    ∀ (ps : List (IoctlResult × Nat)) (j i : Nat) (r : IoctlResult) (addr : Nat),
      ps[i]? = some (r, addr) →
      Event.xioctl Request.VIDIOC_QUERYBUF (bufArg (j + i)) r ∈ poolEvents j ps ∧
        Event.v4l2_mmap r.arg.length r.arg.offset addr ∈ poolEvents j ps := by
  intro ps
  induction ps with
  | nil => intro j i r addr h; simp at h
  | cons p ps ih =>
    intro j i r addr h
    cases i with
    | zero =>
      simp only [List.getElem?_cons_zero, Option.some.injEq] at h
      subst h
      simp [poolEvents]
    | succ i =>
      simp only [List.getElem?_cons_succ] at h
      obtain ⟨h1, h2⟩ := ih (j + 1) i r addr h
      have hji : j + (i + 1) = j + 1 + i := by omega
      rw [hji]
      simp only [poolEvents, List.mem_cons]
      exact ⟨Or.inr (Or.inr h1), Or.inr (Or.inr h2)⟩

/-- The conversion to `IDL_LONG` keeps every value below 2^31. -/
theorem IDL_LONG_cast_of_lt (x : Nat) (h : x < 2 ^ 31) : IDL_LONG_cast x = (x : Int) := by
  unfold IDL_LONG_cast
  have h1 : x % 2 ^ 32 = x := Nat.mod_eq_of_lt (by omega)
  rw [h1, if_pos h]

/-- The conversion to `IDL_LONG` takes a 32-bit value from 2^31 up to that
value minus 2^32, a negative number. -/
theorem IDL_LONG_cast_of_ge (x : Nat) (h1 : 2 ^ 31 ≤ x) (h2 : x < 2 ^ 32) :
    IDL_LONG_cast x = (x : Int) - 2 ^ 32 := by
  unfold IDL_LONG_cast
  have h3 : x % 2 ^ 32 = x := Nat.mod_eq_of_lt h2
  rw [h3, if_neg (by omega)]

/-- When the block `Select video input` returns, the cropping query was
answered by the device, and the crop reset was submitted exactly when the
query returned 0. -/
theorem selectInput_inv {σ : Type} {k : Kernel σ} {fuel : Nat} {st st2 : State σ} {fd : Int}
    (h : selectInput k fuel st fd = some st2) :
    ∃ (cc : IoctlResult) (sA : State σ),
      xioctl k fuel st fd Request.VIDIOC_CROPCAP
          { CLEAR with type := V4L2_BUF_TYPE_VIDEO_CAPTURE } = some (cc, sA) ∧
      ((cc.ret = 0 ∧ ∃ sc, xioctl k fuel sA fd Request.VIDIOC_S_CROP
            { CLEAR with type := V4L2_BUF_TYPE_VIDEO_CAPTURE, rect := cc.arg.rect }
              = some (sc, st2)) ∨
        (cc.ret ≠ 0 ∧ st2 = sA)) := by
  unfold selectInput at h
  cases hc : xioctl k fuel st fd Request.VIDIOC_CROPCAP
      { CLEAR with type := V4L2_BUF_TYPE_VIDEO_CAPTURE } with
  | none => simp [hc] at h
  | some p =>
    obtain ⟨cc, s1⟩ := p
    simp only [hc] at h
    refine ⟨cc, s1, rfl, ?_⟩
    by_cases h0 : cc.ret = 0
    · simp only [h0, if_true] at h
      cases hs : xioctl k fuel s1 fd Request.VIDIOC_S_CROP
          { CLEAR with type := V4L2_BUF_TYPE_VIDEO_CAPTURE, rect := cc.arg.rect } with
      | none => simp [hs] at h
      | some p2 =>
        obtain ⟨sc, s2⟩ := p2
        simp only [hs, Option.some.injEq] at h
        subst h
        exact Or.inl ⟨h0, sc, rfl⟩
    · simp only [h0, if_false, Option.some.injEq] at h
      exact Or.inr ⟨h0, h.symm⟩

/-- When `negotiate` hands on a format, the capability query was answered by
the device with both capabilities present, the block `Select video input`
returned, and the format is the device's successful answer to the format
request submitted right after it. -/
theorem negotiate_inv {σ : Type} {k : Kernel σ} {fuel : Nat} {st st3 : State σ} {fd : Int}
    {fmt : IoctlResult} (h : negotiate k fuel st fd = some (some fmt, st3)) :
    ∃ (cap : IoctlResult) (s1 s2 : State σ),
      xioctl k fuel st fd Request.VIDIOC_QUERYCAP CLEAR = some (cap, s1) ∧
      cap.ret ≠ -1 ∧
      cap.arg.capabilities &&& V4L2_CAP_VIDEO_CAPTURE ≠ 0 ∧
      cap.arg.capabilities &&& V4L2_CAP_STREAMING ≠ 0 ∧
      selectInput k fuel s1 fd = some s2 ∧
      xioctl k fuel s2 fd Request.VIDIOC_S_FMT fmtArg = some (fmt, st3) ∧
      fmt.ret ≠ -1 := by
  unfold negotiate at h
  cases hq : xioctl k fuel st fd Request.VIDIOC_QUERYCAP CLEAR with
  | none => simp [hq] at h
  | some p =>
    obtain ⟨cap, s1⟩ := p
    simp only [hq] at h
    by_cases h1 : cap.ret = -1
    · simp [h1] at h
    by_cases h2 : cap.arg.capabilities &&& V4L2_CAP_VIDEO_CAPTURE = 0
    · simp [h1, h2] at h
    by_cases h3 : cap.arg.capabilities &&& V4L2_CAP_STREAMING = 0
    · simp [h1, h2, h3] at h
    simp only [h1, h2, h3, if_false] at h
    cases hsel : selectInput k fuel s1 fd with
    | none => simp [hsel] at h
    | some s2 =>
      simp only [hsel] at h
      cases hf : xioctl k fuel s2 fd Request.VIDIOC_S_FMT fmtArg with
      | none => simp [hf] at h
      | some p3 =>
        obtain ⟨f, s3⟩ := p3
        simp only [hf] at h
        by_cases h4 : f.ret = -1
        · simp [h4] at h
        · simp only [h4, if_false, Option.some.injEq, Prod.mk.injEq] at h
          obtain ⟨hx, hst⟩ := h
          subst hx hst
          exact ⟨cap, s1, s2, rfl, h1, h2, h3, hsel, hf, h4⟩

/-- Each answer of a mapping run is the device's answer to the query of the
buffer at its position, followed by the device's answer to the mapping of the
reported length and offset. -/
theorem mapRun_get {σ : Type} {k : Kernel σ} {fuel : Nat} {fd : Int} :
    ∀ (ps : List (IoctlResult × Nat)) (st st1 : State σ) (i : Nat) (r : IoctlResult)
      (addr : Nat),
      mapRun k fuel fd ps st st1 → ps[i]? = some (r, addr) →
      ∃ s sB : State σ,
        xioctl k fuel s fd Request.VIDIOC_QUERYBUF (bufArg (st.n_buffers + i)) = some (r, sB) ∧
        (k.v4l2_mmap sB.world r.arg.length fd r.arg.offset).1 = addr := by
  intro ps
  induction ps with
  | nil => intro st st1 i r addr _ h; simp at h
  | cons p ps ih =>
    intro st st1 i r addr hrun h
    obtain ⟨s1, hq, hm, hrest⟩ := hrun
    obtain ⟨-, -, hn1, -⟩ := xioctl_some hq
    cases i with
    | zero =>
      simp only [List.getElem?_cons_zero, Option.some.injEq] at h
      subst h
      exact ⟨st, s1, hq, hm⟩
    | succ i =>
      simp only [List.getElem?_cons_succ] at h
      obtain ⟨s, sB, h1, h2⟩ := ih _ _ i r addr hrest h
      refine ⟨s, sB, ?_, h2⟩
      have hidx : st.n_buffers + (i + 1) = s1.n_buffers + 1 + i := by rw [hn1]; omega
      rw [hidx]
      exact h1

/-- C10, counterexample: the device answers the format request with width
4294967295 and height 2147483648; `idlv4l2_init` returns 1 and what it stores
through the width and height outputs is -1 and -2147483648, not the values
the device returned. -/
theorem init_stores_signed_counterexample :
    (idlv4l2_init wideFormat.kernel 1 fresh 3).map
        (fun p => (p.1, p.2.trace.filter (Event.isRequest Request.VIDIOC_S_FMT),
                   p.2.trace.filter Event.isStore))
      = some (1,
          [Event.xioctl Request.VIDIOC_S_FMT fmtArg
            { ret := 0, errno := 0,
              arg := { fmtArg with width := 4294967295, height := 2147483648 } }],
          [Event.store 2 (-1), Event.store 3 (-2147483648)]) ∧
    ((4294967295 : Nat) : Int) ≠ -1 ∧ ((2147483648 : Nat) : Int) ≠ -2147483648 := by
  decide

/-- C10, as amended: whenever `idlv4l2_init` returns 1, the run was this one.
The device answered the capability query with both capabilities, the cropping
query (and the crop reset when that query returned 0), the format request
(`fmt`, successful) and the buffer request (`req`, successful), each submitted
in the state the previous call left; `calloc` succeeded; and the mapping loop
got the answers `ps` from the device (`mapRun`). Then `n_buffers` is the count
the buffer request granted, `req.arg.count`, which is at least 2; `buffers`
holds, for each index `i` below the count, the length the device reported for
the query of buffer `i` and the address the device returned for its mapping,
which is not `MAP_FAILED`; and the values stored through the width and height
outputs are the width and height of the device's answer `fmt` converted to
`IDL_LONG`: the value itself below 2^31, the value minus 2^32 from 2^31 up,
whatever was requested. -/
theorem init_success_pool {σ : Type} (k : Kernel σ) (fuel : Nat) (st st1 : State σ)
    (fd : Int) (h : idlv4l2_init k fuel st fd = some (1, st1)) :
    ∃ (cap cc fmt req : IoctlResult) (s1 sA s2 st3 st4 st6 : State σ) (pre : List Event)
      (ps : List (IoctlResult × Nat)),
      xioctl k fuel st fd Request.VIDIOC_QUERYCAP CLEAR = some (cap, s1) ∧
      cap.ret ≠ -1 ∧
      cap.arg.capabilities &&& V4L2_CAP_VIDEO_CAPTURE ≠ 0 ∧
      cap.arg.capabilities &&& V4L2_CAP_STREAMING ≠ 0 ∧
      xioctl k fuel s1 fd Request.VIDIOC_CROPCAP
          { CLEAR with type := V4L2_BUF_TYPE_VIDEO_CAPTURE } = some (cc, sA) ∧
      ((cc.ret = 0 ∧ ∃ sc, xioctl k fuel sA fd Request.VIDIOC_S_CROP
            { CLEAR with type := V4L2_BUF_TYPE_VIDEO_CAPTURE, rect := cc.arg.rect }
              = some (sc, s2)) ∨
        (cc.ret ≠ 0 ∧ s2 = sA)) ∧
      xioctl k fuel s2 fd Request.VIDIOC_S_FMT fmtArg = some (fmt, st3) ∧
      fmt.ret ≠ -1 ∧
      xioctl k fuel st3 fd Request.VIDIOC_REQBUFS reqArg = some (req, st4) ∧
      req.ret ≠ -1 ∧
      (k.calloc st4.world req.arg.count).1 = true ∧
      mapRun k fuel fd ps
        { afterCalloc st4 req.arg.count (k.calloc st4.world req.arg.count) with
          n_buffers := 0 } st6 ∧
      st1 = (st6.log (Event.store 2 (IDL_LONG_cast fmt.arg.width))).log
              (Event.store 3 (IDL_LONG_cast fmt.arg.height)) ∧
      st1.n_buffers = req.arg.count ∧ 2 ≤ st1.n_buffers ∧
      ps.length = st1.n_buffers ∧ st1.buffers = poolOf ps ∧
      (∀ p ∈ ps, p.1.ret ≠ -1 ∧ p.2 ≠ MAP_FAILED) ∧
      (∀ i r addr, ps[i]? = some (r, addr) →
        st1.buf i = { start := addr, length := r.arg.length } ∧ addr ≠ MAP_FAILED ∧
          (∃ s sB : State σ,
            xioctl k fuel s fd Request.VIDIOC_QUERYBUF (bufArg i) = some (r, sB) ∧
            (k.v4l2_mmap sB.world r.arg.length fd r.arg.offset).1 = addr) ∧
          Event.xioctl Request.VIDIOC_QUERYBUF (bufArg i) r ∈ poolEvents 0 ps ∧
          Event.v4l2_mmap r.arg.length r.arg.offset addr ∈ poolEvents 0 ps) ∧
      st1.trace = st.trace ++ pre ++
        [Event.xioctl Request.VIDIOC_S_FMT fmtArg fmt,
         Event.xioctl Request.VIDIOC_REQBUFS reqArg req,
         Event.calloc req.arg.count true] ++
        poolEvents 0 ps ++
        [Event.store 2 (IDL_LONG_cast fmt.arg.width),
         Event.store 3 (IDL_LONG_cast fmt.arg.height)] ∧
      (fmt.arg.width < 2 ^ 31 → IDL_LONG_cast fmt.arg.width = (fmt.arg.width : Int)) ∧
      (2 ^ 31 ≤ fmt.arg.width → fmt.arg.width < 2 ^ 32 →
        IDL_LONG_cast fmt.arg.width = (fmt.arg.width : Int) - 2 ^ 32) ∧
      (fmt.arg.height < 2 ^ 31 → IDL_LONG_cast fmt.arg.height = (fmt.arg.height : Int)) ∧
      (2 ^ 31 ≤ fmt.arg.height → fmt.arg.height < 2 ^ 32 →
        IDL_LONG_cast fmt.arg.height = (fmt.arg.height : Int) - 2 ^ 32) := by
  unfold idlv4l2_init at h
  cases hn : negotiate k fuel st fd with
  | none => simp [hn] at h
  | some p =>
    obtain ⟨x, st3⟩ := p
    cases x with
    | none => simp [hn] at h
    | some fmt =>
      obtain ⟨evs, htr3, -, hfmt⟩ := negotiate_some hn
      obtain ⟨-, pre, hpre⟩ := hfmt fmt rfl
      obtain ⟨cap, s1, s2, hcap, hc1, hc2, hc3, hsel, hsf, hfok⟩ := negotiate_inv hn
      obtain ⟨cc, sA, hcc, hcrop⟩ := selectInput_inv hsel
      simp only [hn] at h
      cases hr : xioctl k fuel st3 fd Request.VIDIOC_REQBUFS reqArg with
      | none => simp [hr] at h
      | some p2 =>
        obtain ⟨req, st4⟩ := p2
        obtain ⟨htr4, -, -, -⟩ := xioctl_some hr
        simp only [hr] at h
        by_cases h1 : req.ret = -1
        · simp [h1] at h
        by_cases h2 : req.arg.count < 2
        · simp [h1, h2] at h
        simp only [h1, h2, if_false] at h
        cases hc : (k.calloc st4.world req.arg.count).1 with
        | false => simp [hc] at h
        | true =>
          simp only [hc, Bool.not_true, Bool.false_eq_true, if_false] at h
          cases hm : mapLoop k fuel fd req.arg.count
              { afterCalloc st4 req.arg.count (k.calloc st4.world req.arg.count) with
                n_buffers := 0 } with
          | none => simp [hm] at h
          | some p3 =>
            obtain ⟨b, st6⟩ := p3
            cases b with
            | false => simp [hm] at h
            | true =>
              simp only [hm, Option.some.injEq, Prod.mk.injEq, true_and] at h
              obtain ⟨ps, hps, hall, hnb, htr6, hbuf, hrun⟩ := mapLoop_true _ _ _ hm (by
                simp [afterCalloc, hc])
              simp only [afterCalloc, hc, if_true, Nat.zero_add, List.take_zero,
                List.nil_append, List.drop_replicate, Nat.sub_self, List.replicate_zero,
                List.append_nil] at hnb htr6 hbuf
              have hb1 : st1.buffers = poolOf ps := by rw [← h]; exact hbuf
              have hn1 : st1.n_buffers = req.arg.count := by rw [← h]; exact hnb
              refine ⟨cap, cc, fmt, req, s1, sA, s2, st3, st4, st6, pre, ps,
                hcap, hc1, hc2, hc3, hcc, hcrop, hsf, hfok, hr, h1, hc, hrun, h.symm,
                hn1, ?_, ?_, hb1, hall, ?_, ?_,
                IDL_LONG_cast_of_lt _, IDL_LONG_cast_of_ge _,
                IDL_LONG_cast_of_lt _, IDL_LONG_cast_of_ge _⟩
              · rw [hn1]; omega
              · rw [hn1]; exact hps
              · intro i r addr hi
                have hmem : (r, addr) ∈ ps := List.getElem?_mem hi
                have hev := poolEvents_mem ps 0 i r addr hi
                have hk := mapRun_get ps _ _ i r addr hrun hi
                simp only [Nat.zero_add] at hev hk
                refine ⟨?_, (hall _ hmem).2, hk, hev.1, hev.2⟩
                unfold State.buf
                rw [hb1]
                simp [poolOf, List.getD_eq_getElem?_getD, hi]
              · rw [← h]
                simp only [State.log, htr6, htr4, htr3, hpre, List.append_assoc,
                  List.cons_append, List.nil_append, List.singleton_append]

/-- C10 as amended, worked example: the working camera grants two buffers and
answers the request for 640 x 480 with 320 x 240; the call returns 1 with a
pool of two mapped buffers, and stores 320 and 240. -/
theorem init_success_pool_witness :
    (idlv4l2_init (camera 2 0 16).kernel 1 fresh 3).map
        (fun p => (p.1, p.2.n_buffers, p.2.buffers, p.2.trace.filter Event.isStore))
      = some (1, 2, [{ start := 4096, length := 16 }, { start := 4112, length := 16 }],
          [Event.store 2 320, Event.store 3 240]) ∧
    (xioctl (camera 2 0 16).kernel 1 fresh 3 Request.VIDIOC_QUERYCAP CLEAR).map
        (fun p => p.1.arg.capabilities) = some 0x04000001 ∧
    ∃ st1, idlv4l2_init (camera 2 0 16).kernel 1 fresh 3 = some (1, st1) ∧
      ∃ (cap cc fmt req : IoctlResult) (s1 sA s2 st3 st4 st6 : State Nat) (pre : List Event)
        (ps : List (IoctlResult × Nat)),
        xioctl (camera 2 0 16).kernel 1 fresh 3 Request.VIDIOC_QUERYCAP CLEAR
          = some (cap, s1) ∧
        cap.ret ≠ -1 ∧
        cap.arg.capabilities &&& V4L2_CAP_VIDEO_CAPTURE ≠ 0 ∧
        cap.arg.capabilities &&& V4L2_CAP_STREAMING ≠ 0 ∧
        xioctl (camera 2 0 16).kernel 1 s1 3 Request.VIDIOC_CROPCAP
            { CLEAR with type := V4L2_BUF_TYPE_VIDEO_CAPTURE } = some (cc, sA) ∧
        ((cc.ret = 0 ∧ ∃ sc, xioctl (camera 2 0 16).kernel 1 sA 3 Request.VIDIOC_S_CROP
              { CLEAR with type := V4L2_BUF_TYPE_VIDEO_CAPTURE, rect := cc.arg.rect }
                = some (sc, s2)) ∨
          (cc.ret ≠ 0 ∧ s2 = sA)) ∧
        xioctl (camera 2 0 16).kernel 1 s2 3 Request.VIDIOC_S_FMT fmtArg = some (fmt, st3) ∧
        fmt.ret ≠ -1 ∧
        xioctl (camera 2 0 16).kernel 1 st3 3 Request.VIDIOC_REQBUFS reqArg
          = some (req, st4) ∧
        req.ret ≠ -1 ∧
        ((camera 2 0 16).kernel.calloc st4.world req.arg.count).1 = true ∧
        mapRun (camera 2 0 16).kernel 1 3 ps
          { afterCalloc st4 req.arg.count
              ((camera 2 0 16).kernel.calloc st4.world req.arg.count) with
            n_buffers := 0 } st6 ∧
        st1 = (st6.log (Event.store 2 (IDL_LONG_cast fmt.arg.width))).log
                (Event.store 3 (IDL_LONG_cast fmt.arg.height)) ∧
        st1.n_buffers = req.arg.count ∧ 2 ≤ st1.n_buffers ∧
        ps.length = st1.n_buffers ∧ st1.buffers = poolOf ps ∧
        (∀ p ∈ ps, p.1.ret ≠ -1 ∧ p.2 ≠ MAP_FAILED) ∧
        (∀ i r addr, ps[i]? = some (r, addr) →
          st1.buf i = { start := addr, length := r.arg.length } ∧ addr ≠ MAP_FAILED ∧
            (∃ s sB : State Nat,
              xioctl (camera 2 0 16).kernel 1 s 3 Request.VIDIOC_QUERYBUF (bufArg i)
                = some (r, sB) ∧
              ((camera 2 0 16).kernel.v4l2_mmap sB.world r.arg.length 3 r.arg.offset).1
                = addr) ∧
            Event.xioctl Request.VIDIOC_QUERYBUF (bufArg i) r ∈ poolEvents 0 ps ∧
            Event.v4l2_mmap r.arg.length r.arg.offset addr ∈ poolEvents 0 ps) ∧
        st1.trace = fresh.trace ++ pre ++
          [Event.xioctl Request.VIDIOC_S_FMT fmtArg fmt,
           Event.xioctl Request.VIDIOC_REQBUFS reqArg req,
           Event.calloc req.arg.count true] ++
          poolEvents 0 ps ++
          [Event.store 2 (IDL_LONG_cast fmt.arg.width),
           Event.store 3 (IDL_LONG_cast fmt.arg.height)] ∧
        (fmt.arg.width < 2 ^ 31 → IDL_LONG_cast fmt.arg.width = (fmt.arg.width : Int)) ∧
        (2 ^ 31 ≤ fmt.arg.width → fmt.arg.width < 2 ^ 32 →
          IDL_LONG_cast fmt.arg.width = (fmt.arg.width : Int) - 2 ^ 32) ∧
        (fmt.arg.height < 2 ^ 31 → IDL_LONG_cast fmt.arg.height = (fmt.arg.height : Int)) ∧
        (2 ^ 31 ≤ fmt.arg.height → fmt.arg.height < 2 ^ 32 →
          IDL_LONG_cast fmt.arg.height = (fmt.arg.height : Int) - 2 ^ 32) :=
  ⟨by decide, by decide, _, rfl, init_success_pool (camera 2 0 16).kernel 1 fresh _ 3 rfl⟩

/-- C4, the code at the failing input: the device grants two buffers, the
first is mapped, and mapping the second fails. `idlv4l2_init` returns 0 with
one successful mapping and no unmap call in its log: the first buffer stays
mapped, and `n_buffers` is left at 1. -/
theorem init_leaks_mapped_buffers :
    (idlv4l2_init mapFails.kernel 1 fresh 3).map
        (fun p => (p.1, (p.2.trace.filter Event.isMapped).length,
                   (p.2.trace.filter Event.isMunmap).length,
                   p.2.trace.filter Event.isMmap, p.2.n_buffers))
      = some (0, 1, 0,
          [Event.v4l2_mmap 16 0 4096, Event.v4l2_mmap 16 16 MAP_FAILED], 1) := by
  decide

/-! ## Further properties -/

/-- On a device whose `select` always returns -1, whatever `errno` it reports,
`idlv4l2_readframe` does not return, however many `select` calls are allowed. -/
theorem readframe_never_returns {σ : Type} (k : Kernel σ) (fd : Int)
    (hfail : ∀ w, (k.select w fd).1.ret = -1) (fuel : Nat) (st : State σ) :
    idlv4l2_readframe k fuel st fd = none := by
  unfold idlv4l2_readframe
  rw [waitLoop_never_returns k fd hfail fuel st]

/-- Worked example: `select` keeps failing with `EBADF`; a thousand calls are
not enough for `idlv4l2_readframe` to return. -/
theorem readframe_never_returns_witness :
    (∀ w, (deadWait.kernel.select w 3).1.ret = -1) ∧ EBADF ≠ EINTR ∧
      idlv4l2_readframe deadWait.kernel 1000 pooled 3 = none :=
  ⟨fun _ => rfl, by decide,
    readframe_never_returns deadWait.kernel 3 (fun _ => rfl) 1000 pooled⟩

/-- What `xioctl` returns is never an interrupted call: the loop hands back
the first result that is not a failure with `EINTR`. -/
theorem xioctlLoop_not_interrupted {σ : Type} (k : Kernel σ) (fd : Int) (q : Request) :
    ∀ (fuel : Nat) (w w1 : σ) (a : Arg) (r : IoctlResult),
      xioctlLoop k fuel w fd q a = some (r, w1) → ¬ (r.ret = -1 ∧ r.errno = EINTR) := by
  intro fuel
  induction fuel with
  | zero => intro w w1 a r h; simp [xioctlLoop] at h
  | succ n ih =>
    intro w w1 a r h
    rw [xioctlLoop] at h
    by_cases hi : (k.v4l2_ioctl w fd q a).1.ret = -1 ∧ (k.v4l2_ioctl w fd q a).1.errno = EINTR
    · simp only [hi, and_self, if_true] at h
      exact ih _ _ _ _ h
    · simp only [hi, if_false, Option.some.injEq] at h
      rw [h] at hi
      exact hi

/-- Worked example: the buffer query of buffer 0 is interrupted once and
submitted again. With one `v4l2_ioctl` call allowed per request
`idlv4l2_init` does not get through; with two it succeeds, and its log holds
one entry for each of the two buffer queries. -/
theorem xioctlLoop_not_interrupted_witness :
    xioctlLoop interrupted.kernel 2 6 3 Request.VIDIOC_QUERYBUF (bufArg 0)
        = some ({ ret := 0, errno := 0, arg := { bufArg 0 with length := 16, offset := 0 } }, 8) ∧
      idlv4l2_init interrupted.kernel 1 fresh 3 = none ∧
      ¬ ((0 : Int) = -1 ∧ 0 = EINTR) ∧
      (idlv4l2_init interrupted.kernel 2 fresh 3).map
          (fun p => (p.1, p.2.buffers, (p.2.trace.filter
            (Event.isRequest Request.VIDIOC_QUERYBUF)).length))
        = some (1, [{ start := 4096, length := 16 }, { start := 4112, length := 16 }], 2) :=
  ⟨rfl, rfl,
    xioctlLoop_not_interrupted interrupted.kernel 3 Request.VIDIOC_QUERYBUF 2 6 8 (bufArg 0)
      { ret := 0, errno := 0, arg := { bufArg 0 with length := 16, offset := 0 } } rfl,
    by decide⟩

/-- The mapping loop never unmaps: whatever way it ends, its log holds buffer
queries and mappings only. -/
theorem mapLoop_log {σ : Type} {k : Kernel σ} {fuel : Nat} {fd : Int} :
    ∀ (m : Nat) (st st1 : State σ) (b : Bool),
      mapLoop k fuel fd m st = some (b, st1) →
      ∃ evs, st1.trace = st.trace ++ evs ∧
        ∀ e ∈ evs, e.isRequest Request.VIDIOC_QUERYBUF = true ∨ e.isMmap = true := by
  intro m
  induction m with
  | zero =>
    intro st st1 b h
    simp only [mapLoop, Option.some.injEq, Prod.mk.injEq] at h
    obtain ⟨-, rfl⟩ := h
    exact ⟨[], by simp, by simp⟩
  | succ m ih =>
    intro st st1 b h
    rw [mapLoop] at h
    cases hq : xioctl k fuel st fd Request.VIDIOC_QUERYBUF (bufArg st.n_buffers) with
    | none => simp [hq] at h
    | some p =>
      obtain ⟨r, s1⟩ := p
      obtain ⟨htr1, -, -, -⟩ := xioctl_some hq
      simp only [hq] at h
      by_cases h1 : r.ret = -1
      · simp only [h1, if_true, Option.some.injEq, Prod.mk.injEq] at h
        obtain ⟨-, rfl⟩ := h
        refine ⟨_, htr1, ?_⟩
        intro e he
        simp only [List.mem_singleton] at he
        subst he
        exact Or.inl rfl
      by_cases h2 : (k.v4l2_mmap s1.world r.arg.length fd r.arg.offset).1 = MAP_FAILED
      · simp only [h1, h2, if_true, if_false, Option.some.injEq, Prod.mk.injEq] at h
        obtain ⟨-, rfl⟩ := h
        refine ⟨[Event.xioctl Request.VIDIOC_QUERYBUF (bufArg st.n_buffers) r,
          Event.v4l2_mmap r.arg.length r.arg.offset MAP_FAILED], ?_, ?_⟩
        · simp [htr1]
        · intro e he
          simp only [List.mem_cons, List.mem_singleton, List.not_mem_nil, or_false] at he
          rcases he with rfl | rfl
          · exact Or.inl rfl
          · exact Or.inr rfl
      simp only [h1, h2, if_false] at h
      obtain ⟨evs, htr, hev⟩ := ih _ _ _ h
      refine ⟨Event.xioctl Request.VIDIOC_QUERYBUF (bufArg st.n_buffers) r ::
        Event.v4l2_mmap r.arg.length r.arg.offset
          (k.v4l2_mmap s1.world r.arg.length fd r.arg.offset).1 :: evs, ?_, ?_⟩
      · rw [htr]
        simp [htr1]
      · intro e he
        simp only [List.mem_cons] at he
        rcases he with rfl | rfl | he
        · exact Or.inl rfl
        · exact Or.inr rfl
        · exact hev e he

/-- An entry that is a buffer query or a mapping is no unmap call. -/
theorem not_isMunmap_of_query_or_map (e : Event)
    (h : e.isRequest Request.VIDIOC_QUERYBUF = true ∨ e.isMmap = true) :
    e.isMunmap = false := by
  cases e <;> simp_all [Event.isRequest, Event.isMmap, Event.isMunmap]

/-- Whenever `idlv4l2_init` returns, with success or failure, the log of the
call holds no unmap call: no path of `idlv4l2_init` releases a mapping. -/
theorem init_never_unmaps {σ : Type} (k : Kernel σ) (fuel : Nat) (st st1 : State σ)
    (fd : Int) (ret : Int) (h : idlv4l2_init k fuel st fd = some (ret, st1)) :
    ∃ evs, st1.trace = st.trace ++ evs ∧ ∀ e ∈ evs, e.isMunmap = false := by
  unfold idlv4l2_init at h
  cases hn : negotiate k fuel st fd with
  | none => simp [hn] at h
  | some p =>
    obtain ⟨x, st3⟩ := p
    obtain ⟨evs3, htr3, hev3, -⟩ := negotiate_some hn
    have hneg : ∀ e ∈ evs3, e.isMunmap = false :=
      fun e he => (isNegotiation_excludes e (hev3 e he)).2.2.2
    cases x with
    | none =>
      simp only [hn, Option.some.injEq, Prod.mk.injEq] at h
      obtain ⟨-, rfl⟩ := h
      exact ⟨evs3, htr3, hneg⟩
    | some fmt =>
      simp only [hn] at h
      cases hr : xioctl k fuel st3 fd Request.VIDIOC_REQBUFS reqArg with
      | none => simp [hr] at h
      | some p2 =>
        obtain ⟨req, st4⟩ := p2
        obtain ⟨htr4, -, -, -⟩ := xioctl_some hr
        simp only [hr] at h
        have hreq : ∀ e ∈ evs3 ++ [Event.xioctl Request.VIDIOC_REQBUFS reqArg req],
            e.isMunmap = false := by
          intro e he
          rcases List.mem_append.1 he with he | he
          · exact hneg e he
          · simp only [List.mem_singleton] at he
            subst he
            rfl
        have htr4a : st4.trace
            = st.trace ++ (evs3 ++ [Event.xioctl Request.VIDIOC_REQBUFS reqArg req]) := by
          rw [htr4, htr3, List.append_assoc]
        by_cases h1 : req.ret = -1
        · simp only [h1, if_true, Option.some.injEq, Prod.mk.injEq] at h
          obtain ⟨-, rfl⟩ := h
          exact ⟨_, htr4a, hreq⟩
        by_cases h2 : req.arg.count < 2
        · simp only [h1, h2, if_true, if_false, Option.some.injEq, Prod.mk.injEq] at h
          obtain ⟨-, rfl⟩ := h
          exact ⟨_, htr4a, hreq⟩
        simp only [h1, h2, if_false] at h
        have hcal : ∀ e ∈ evs3 ++ [Event.xioctl Request.VIDIOC_REQBUFS reqArg req] ++
            [Event.calloc req.arg.count (k.calloc st4.world req.arg.count).1],
            e.isMunmap = false := by
          intro e he
          rcases List.mem_append.1 he with he | he
          · exact hreq e he
          · simp only [List.mem_singleton] at he
            subst he
            rfl
        have htr5 : (afterCalloc st4 req.arg.count (k.calloc st4.world req.arg.count)).trace
            = st.trace ++ (evs3 ++ [Event.xioctl Request.VIDIOC_REQBUFS reqArg req] ++
                [Event.calloc req.arg.count (k.calloc st4.world req.arg.count).1]) := by
          simp [afterCalloc, htr4a]
        cases hc : (k.calloc st4.world req.arg.count).1 with
        | false =>
          simp only [hc, Bool.not_false, if_true, Option.some.injEq, Prod.mk.injEq] at h
          obtain ⟨-, rfl⟩ := h
          exact ⟨_, htr5, hcal⟩
        | true =>
          simp only [hc, Bool.not_true, Bool.false_eq_true, if_false] at h
          cases hm : mapLoop k fuel fd req.arg.count
              { afterCalloc st4 req.arg.count (k.calloc st4.world req.arg.count) with
                n_buffers := 0 } with
          | none => simp [hm] at h
          | some p3 =>
            obtain ⟨b, st6⟩ := p3
            obtain ⟨evs6, htr6, hev6⟩ := mapLoop_log _ _ _ _ hm
            have hmap : ∀ e ∈ evs6, e.isMunmap = false :=
              fun e he => not_isMunmap_of_query_or_map e (hev6 e he)
            simp only [htr5] at htr6
            cases b with
            | false =>
              simp only [hm, Option.some.injEq, Prod.mk.injEq] at h
              obtain ⟨-, rfl⟩ := h
              refine ⟨_, by rw [htr6, List.append_assoc], ?_⟩
              intro e he
              rcases List.mem_append.1 he with he | he
              · exact hcal e he
              · exact hmap e he
            | true =>
              simp only [hm, Option.some.injEq, Prod.mk.injEq] at h
              obtain ⟨-, rfl⟩ := h
              refine ⟨evs3 ++ [Event.xioctl Request.VIDIOC_REQBUFS reqArg req] ++
                [Event.calloc req.arg.count (k.calloc st4.world req.arg.count).1] ++ evs6 ++
                [Event.store 2 (IDL_LONG_cast fmt.arg.width),
                 Event.store 3 (IDL_LONG_cast fmt.arg.height)], ?_, ?_⟩
              · simp [State.log, htr6]
              · intro e he
                rcases List.mem_append.1 he with he | he
                · rcases List.mem_append.1 he with he | he
                  · exact hcal e he
                  · exact hmap e he
                · simp only [List.mem_cons, List.mem_singleton, List.not_mem_nil,
                    or_false] at he
                  rcases he with rfl | rfl <;> rfl

/-- Worked example: on the device whose second mapping fails, the call returns
0 and its log holds no unmap call. -/
theorem init_never_unmaps_witness :
    ∃ st1, idlv4l2_init mapFails.kernel 1 fresh 3 = some (0, st1) ∧
      ∃ evs, st1.trace = fresh.trace ++ evs ∧ ∀ e ∈ evs, e.isMunmap = false :=
  ⟨_, rfl, init_never_unmaps mapFails.kernel 1 fresh _ 3 0 rfl⟩

end Idlv4l2
